import Mathlib

/-!
Verification of the bzreporter reconciliation tool (src/bzreporter.py).

The development shallowly embeds the program: text is modeled as Lean
strings and lists of characters, the regex scans of RE_BZID and
RE_FILENAME become explicit character scanners, the junit parsing of
process_file becomes a function into Except (Python exceptions are
modeled as Except.error), and BzReporter.report_results becomes a pure
function returning the decision taken together with the tracker write it
issues (none when no write happens).

A central point of the embedding: the source calls
RE_BZID.findall(txt, re.MULTILINE) and RE_FILENAME.search(txt, re.MULTILINE).
The second positional argument of Pattern.findall and Pattern.search is
the start position, not a flag set, and re.MULTILINE has the integer
value 8, so both scans start at character offset 8 of the text. The
embedding reproduces this with List.drop 8.
-/

namespace Bzreporter

/-! ## Character-list string primitives -/

/-- Boolean test that the first list is a leading segment of the second. -/
def isPrefOf : List Char → List Char → Bool
  | [], _ => true
  | _ :: _, [] => false
  | a :: as, b :: bs => if a = b then isPrefOf as bs else false

/-- Boolean test that p occurs contiguously somewhere inside s; this
embeds the Python substring operator used on strings. -/
def hasSub (p : List Char) : List Char → Bool
  | [] => isPrefOf p []
  | c :: rest => isPrefOf p (c :: rest) || hasSub p rest

/-- Number of positions of s at which p occurs. -/
def countOccs (p : List Char) : List Char → Nat
  | [] => if isPrefOf p [] then 1 else 0
  | c :: rest => (if isPrefOf p (c :: rest) then 1 else 0) + countOccs p rest

/-- Embedding of the Python expression pat in s, for strings. -/
def pyIn (pat s : String) : Bool := hasSub pat.data s.data

/-- Embedding of the Python split on a newline character. -/
def splitNL : List Char → List (List Char)
  | [] => [[]]
  | c :: rest =>
    if c = '\n' then [] :: splitNL rest
    else
      match splitNL rest with
      | [] => [[c]]
      | g :: gs => (c :: g) :: gs

/-- String-level version of splitNL. -/
def pySplitLines (s : String) : List String :=
  (splitNL s.data).map (fun l => String.mk l)

/-- Embedding of the Python join with a newline separator. -/
def joinNL : List String → String
  | [] => ""
  | [s] => s
  | s :: rest => s ++ "\n" ++ joinNL rest

/-- Boolean test that p is a trailing segment of s. -/
def isSuffOf (p s : List Char) : Bool := isPrefOf p.reverse s.reverse

/-! ## Reference extraction (RE_BZID and RE_FILENAME) -/

/-- Value of the digit group of a match, as computed by the Python int
conversion on an ASCII digit string. -/
def digitsToNat (ds : List Char) : Nat :=
  ds.foldl (fun n c => n * 10 + (c.toNat - 48)) 0

/-- Scanner for all non-overlapping matches of the pattern at-sign, the
letters b and z, then one or more digits (greedy), returning the digit
groups in order. The Nat argument is fuel; it starts at the length of
the list and every step consumes at least one character while spending
exactly one unit of fuel, so the fuel never runs out. -/
def scanBzGo : Nat → List Char → List Nat
  | _, [] => []
  | 0, _ :: _ => []
  | fuel + 1, '@' :: 'b' :: 'z' :: rest =>
    let ds := rest.takeWhile Char.isDigit
    if ds = [] then scanBzGo fuel ('b' :: 'z' :: rest)
    else digitsToNat ds :: scanBzGo fuel (rest.dropWhile Char.isDigit)
  | fuel + 1, _ :: rest => scanBzGo fuel rest

/-- All matches of the RE_BZID pattern in a character list, scanning from
its head. -/
def scanBz (cs : List Char) : List Nat := scanBzGo cs.length cs

/-- Embedding of find_bugzillas. The source passes re.MULTILINE (whose
integer value is 8) as the pos argument of findall, so the scan starts
at character offset 8. -/
def findBugzillas (txt : String) : List Nat := scanBz (txt.data.drop 8)

/-- Characters of the RE_FILENAME pattern following the at-sign. -/
def featKey : List Char := "feature_file_name:".data

/-- Scanner for the first match of the pattern at-sign, the literal
feature_file_name marker, then one or more non-whitespace characters
(greedy), returning the captured token. -/
def scanFeature : List Char → Option (List Char)
  | [] => none
  | c :: rest =>
    if c = '@' then
      if isPrefOf featKey rest then
        let tok := (rest.drop featKey.length).takeWhile (fun ch => !ch.isWhitespace)
        if tok = [] then scanFeature rest else some tok
      else scanFeature rest
    else scanFeature rest

/-- Embedding of the RE_FILENAME.search call of process_file. The source
passes re.MULTILINE (integer value 8) as the pos argument of search, so
the scan starts at character offset 8. -/
def findFeatureFile (txt : String) : Option String :=
  (scanFeature (txt.data.drop 8)).map (fun l => String.mk l)

/-! ## Data model of the reconciliation engine -/

/-- The processing marker written into the devel whiteboard field. -/
def DEVEL_WHITEBOARD_MARK : String := "gating_passed+"

/-- One test-case record as consumed by report_results: the dict built by
process_file, with the attributes the reconciliation code reads. -/
structure TestCase where
  classname : String
  name : String
  status : String
  systemOut : String
  featurefile : Option String
deriving DecidableEq

/-- Decision taken by report_results, one per return path of the code. -/
inductive Decision
  | alreadyProcessed
  | dryRun
  | notAllPassed
  | updated
deriving DecidableEq

/-- The update payload handed to bzapi.update_bugs via build_update. -/
structure UpdateDict where
  comment : Option String
  devel_whiteboard : String
deriving DecidableEq

/-- Configuration fields of the BzReporter object. -/
structure ReporterCfg where
  product : String
  release : String
  status : List String
  dry_run : Bool
  comment : Bool
deriving DecidableEq

/-- The bug object as read by report_results. -/
structure Bug where
  id : Nat
  devel_whiteboard : String
deriving DecidableEq

/-- Embedding of the Python expression featurefile or classname: the
classname is used when featurefile is None or the empty string. -/
def pyOrClass (fe : Option String) (cls : String) : String :=
  match fe with
  | some f => if f = "" then cls else f
  | none => cls

/-- Whiteboard token appended for one passed test. -/
def tokenStr (t : TestCase) : String := "Test+:" ++ pyOrClass t.featurefile t.classname

/-- The test name used in log lines and in the comment text. -/
def testName (t : TestCase) : String := t.classname ++ "/" ++ t.name

/-- The separator line of 25 equality signs used in the comment text. -/
def sep25 : String := String.mk (List.replicate 25 '=')

/-- State of the for loop of report_results: comment lines accumulated so
far, the all-passed flag, and the whiteboard tokens accumulated so far. -/
structure LoopAcc where
  comment : List String
  all_passed : Bool
  whiteboard : List String
deriving DecidableEq

/-- Embedding of the for loop over results in report_results. -/
def resultsLoop (acc : LoopAcc) : List TestCase → LoopAcc
  | [] => acc
  | t :: rest =>
    if t.status = "passed" then
      resultsLoop
        ⟨acc.comment ++ [sep25, "Test: " ++ testName t] ++ pySplitLines t.systemOut,
         acc.all_passed, acc.whiteboard ++ [tokenStr t]⟩ rest
    else if t.status = "skipped" then
      resultsLoop acc rest
    else
      resultsLoop ⟨acc.comment, false, acc.whiteboard⟩ rest

/-- Tail of report_results after the loop: the not-all-passed return, or
the construction of the update payload followed by the tracker write. -/
def reportDecide (r : ReporterCfg) (bug : Bug) (acc : LoopAcc) :
    Decision × Option UpdateDict :=
  if !acc.all_passed then
    (Decision.notAllPassed, none)
  else
    (Decision.updated, some
      ⟨if r.comment then some (joinNL acc.comment) else none,
       joinNL ((if bug.devel_whiteboard = "" then acc.whiteboard
                else bug.devel_whiteboard :: acc.whiteboard)
         ++ [DEVEL_WHITEBOARD_MARK])⟩)

/-- Embedding of BzReporter.report_results. The returned pair is the
decision taken and the tracker write issued (none when the code returns
without calling update_bugs). -/
def reportResults (r : ReporterCfg) (bug : Bug) (results : List TestCase) :
    Decision × Option UpdateDict :=
  if pyIn DEVEL_WHITEBOARD_MARK bug.devel_whiteboard then
    (Decision.alreadyProcessed, none)
  else if r.dry_run then
    (Decision.dryRun, none)
  else
    reportDecide r bug (resultsLoop ⟨["The gating tests results:"], true, []⟩ results)

/-! ## Report parsing (process_file and parse_results) -/

/-- A failure child element of a testcase element: its attribute dict and
its text (none for an empty element). -/
structure FailureElem where
  attribs : List (String × String)
  text : Option String
deriving DecidableEq

/-- A testcase element of a junit file: its attribute dict, the optional
system-out child (with its optional text), and the optional failure
child. -/
structure TestcaseElem where
  attribs : List (String × String)
  systemOut : Option (Option String)
  failure : Option FailureElem
deriving DecidableEq

/-- The failure entry stored into the testcase dict. -/
structure PyFailure where
  attribs : List (String × String)
  details : Option String
deriving DecidableEq

/-- The testcase dict after process_file handled one testcase element. -/
structure ProcessedCase where
  attribs : List (String × String)
  systemOut : String
  failure : Option PyFailure
  featurefile : Option String
deriving DecidableEq

/-- Lookup in an attribute dict, embedding Python dict indexing (the
none result corresponds to a KeyError). -/
def lookupA (k : String) : List (String × String) → Option String
  | [] => none
  | (k2, v) :: rest => if k2 = k then some v else lookupA k rest

/-- The failure-capturing step of process_file: only entered when the
status attribute equals failed, and an absent failure element then
raises (attribute access on None). -/
def failureOf (st : String) (e : TestcaseElem) : Except String (Option PyFailure) :=
  if st = "failed" then
    match e.failure with
    | none => Except.error "AttributeError: no failure element"
    | some f => Except.ok (some ⟨f.attribs, f.text⟩)
  else Except.ok none

/-- Embedding of the body of the per-testcase loop of process_file, in
source order: read the system-out child (absent child raises), read the
status attribute (absent key raises), capture the failure child when
status is failed (absent child raises), then run the regex scans on the
system-out text (a None text raises TypeError inside re.search). -/
def processElem (e : TestcaseElem) : Except String ProcessedCase :=
  match e.systemOut with
  | none => Except.error "AttributeError: no system-out element"
  | some sysText =>
    match lookupA "status" e.attribs with
    | none => Except.error "KeyError: status"
    | some st =>
      match failureOf st e with
      | Except.error m => Except.error m
      | Except.ok fl =>
        match sysText with
        | none => Except.error "TypeError: system-out text is None"
        | some so => Except.ok ⟨e.attribs, so, fl, findFeatureFile so⟩

/-- Append one value to the entry of key k of an association list,
creating the entry at the end when absent; this embeds the Python idiom
of setdefault followed by append on an insertion-ordered dict. -/
def addTo : List (Nat × List ProcessedCase) → Nat → ProcessedCase →
    List (Nat × List ProcessedCase)
  | [], k, v => [(k, [v])]
  | (k2, vs) :: rest, k, v =>
    if k2 = k then (k2, vs ++ [v]) :: rest else (k2, vs) :: addTo rest k v

/-- Insert one processed testcase into the per-ticket grouping, once per
ticket id its system-out text references. -/
def addCase (m : List (Nat × List ProcessedCase)) (pc : ProcessedCase) :
    List (Nat × List ProcessedCase) :=
  (findBugzillas pc.systemOut).foldl (fun acc bz => addTo acc bz pc) m

/-- The per-testcase loop of process_file over a list of testcase
elements, threading the grouping dict; the first raise aborts the file. -/
def processCases (acc : List (Nat × List ProcessedCase)) :
    List TestcaseElem → Except String (List (Nat × List ProcessedCase))
  | [] => Except.ok acc
  | e :: rest =>
    match processElem e with
    | Except.error m => Except.error m
    | Except.ok pc => processCases (addCase acc pc) rest

/-- Embedding of process_file on an already XML-parsed file, given as its
list of testcase elements. -/
def processFileElems (elems : List TestcaseElem) :
    Except String (List (Nat × List ProcessedCase)) :=
  processCases [] elems

/-- Extend the entry of key k by a list of values, creating the entry at
the end when absent; this embeds setdefault followed by extend. -/
def extendTo : List (Nat × List ProcessedCase) → Nat → List ProcessedCase →
    List (Nat × List ProcessedCase)
  | [], k, vs => [(k, vs)]
  | (k2, old) :: rest, k, vs =>
    if k2 = k then (k2, old ++ vs) :: rest else (k2, old) :: extendTo rest k vs

/-- Merge the per-file grouping of one file into the accumulated one. -/
def mergeResults (acc m : List (Nat × List ProcessedCase)) :
    List (Nat × List ProcessedCase) :=
  m.foldl (fun a kv => extendTo a kv.1 kv.2) acc

/-- File-name filter of parse_results. -/
def endsXml (name : String) : Bool := isSuffOf ".xml".data name.data

/-- Walk over the files, processing those whose name ends in .xml and
merging their groupings; a parse failure aborts the walk. -/
def parseResultsGo (acc : List (Nat × List ProcessedCase)) :
    List (String × List TestcaseElem) →
    Except String (List (Nat × List ProcessedCase))
  | [] => Except.ok acc
  | (name, elems) :: rest =>
    if endsXml name then
      match processFileElems elems with
      | Except.error m => Except.error m
      | Except.ok m => parseResultsGo (mergeResults acc m) rest
    else parseResultsGo acc rest

/-- Embedding of parse_results. A directory tree is modeled as the list
of (file name, parsed content) pairs in the order os.walk visits them. -/
def parseResults (fs : List (String × List TestcaseElem)) :
    Except String (List (Nat × List ProcessedCase)) :=
  parseResultsGo [] fs

/-! ## Main program flow -/

/-- The query dict built by BzReporter.get_bugs. -/
structure BzQuery where
  product : String
  status : List String
  cf_internal_target_release : String
  f1 : String
  o1 : String
  v1 : String
  bug_id : List Nat
deriving DecidableEq

/-- Embedding of the query construction of get_bugs. -/
def buildQuery (r : ReporterCfg) (bzids : List Nat) : BzQuery :=
  ⟨r.product, r.status, r.release, "cf_devel_whiteboard", "notsubstring",
   DEVEL_WHITEBOARD_MARK, bzids⟩

/-- Operations issued against the external tracker. -/
inductive TrackerOp
  | queryOp (q : BzQuery)
  | updateOp (ids : List Nat) (u : UpdateDict)
deriving DecidableEq

/-- Outcome of one run of main. -/
inductive MainResult
  | parseFailed (msg : String)
  | exited (code : Nat)
  | keyErr (id : Nat)
  | completed
deriving DecidableEq

/-- View of a processed testcase dict as the record report_results reads;
the attribute accesses correspond to dict indexing (the data model
guarantees classname, name and status are present). -/
def toTestCase (pc : ProcessedCase) : TestCase :=
  ⟨(lookupA "classname" pc.attribs).getD "", (lookupA "name" pc.attribs).getD "",
   (lookupA "status" pc.attribs).getD "", pc.systemOut, pc.featurefile⟩

/-- Lookup of the record group of one bug id. -/
def lookupKey (m : List (Nat × List ProcessedCase)) (k : Nat) :
    Option (List ProcessedCase) :=
  match m with
  | [] => none
  | (k2, vs) :: rest => if k2 = k then some vs else lookupKey rest k

/-- The per-bug loop of main, collecting the tracker writes that
report_results issues; looking up a bug id absent from the results dict
raises. -/
def reportLoop (r : ReporterCfg) (results : List (Nat × List ProcessedCase)) :
    List Bug → List TrackerOp → MainResult × List TrackerOp
  | [], ops => (MainResult.completed, ops)
  | bug :: rest, ops =>
    match lookupKey results bug.id with
    | none => (MainResult.keyErr bug.id, ops)
    | some pcs =>
      match (reportResults r bug (pcs.map toTestCase)).2 with
      | some u => reportLoop r results rest (ops ++ [TrackerOp.updateOp [bug.id] u])
      | none => reportLoop r results rest ops

/-- Embedding of main: parse the reports, construct the reporter (exiting
with status 1 when the tracker client is not logged in, before any
tracker operation), query the tracker, then run report_results per bug.
The tracker answer to the query is an input (the external collaborator). -/
def mainRun (loggedIn : Bool) (trackerBugs : BzQuery → List Bug)
    (fs : List (String × List TestcaseElem)) (r : ReporterCfg) :
    MainResult × List TrackerOp :=
  match parseResults fs with
  | Except.error m => (MainResult.parseFailed m, [])
  | Except.ok results =>
    if !loggedIn then (MainResult.exited 1, [])
    else
      let q := buildQuery r (results.map Prod.fst)
      reportLoop r results (trackerBugs q) [TrackerOp.queryOp q]

/-! ## String lemmas -/

theorem strData (a b : String) : (a ++ b).data = a.data ++ b.data := by
  cases a; cases b; rfl

theorem strE {a b : String} (h : a.data = b.data) : a = b := by
  cases a; cases b
  exact congrArg String.mk (by simpa using h)

theorem isPrefOf_nil (p : List Char) (hp : p ≠ []) : isPrefOf p [] = false := by
  cases p with
  | nil => exact absurd rfl hp
  | cons a as => rfl

theorem isPrefOf_refl (p : List Char) : isPrefOf p p = true := by
  induction p with
  | nil => rfl
  | cons a as ih => simp [isPrefOf, ih]

theorem isPrefOf_avoid (p : List Char) (c : Char) (hc : c ∉ p) :
    ∀ (l b : List Char), isPrefOf p (l ++ c :: b) = isPrefOf p l := by
  induction p with
  | nil => intro l b; simp [isPrefOf]
  | cons q p2 ih =>
    intro l b
    cases l with
    | nil =>
      have hq : ¬ q = c := by
        intro h
        exact hc (by simp [h])
      simp [isPrefOf, hq]
    | cons x l2 =>
      have hc2 : c ∉ p2 := fun h => hc (by simp [h])
      simp only [List.cons_append, isPrefOf]
      by_cases hx : q = x
      · simp [hx, ih hc2]
      · simp [hx]

theorem hasSub_self (p : List Char) : hasSub p p = true := by
  cases p with
  | nil => rfl
  | cons c rest => simp [hasSub, isPrefOf_refl]

theorem hasSub_suffix (p pre : List Char) : hasSub p (pre ++ p) = true := by
  induction pre with
  | nil => simpa using hasSub_self p
  | cons x rest ih => simp [hasSub, ih]

theorem countOccs_pos_iff (p : List Char) :
    ∀ s, hasSub p s = true ↔ 0 < countOccs p s := by
  intro s
  induction s with
  | nil =>
    simp only [hasSub, countOccs]
    cases h : isPrefOf p [] <;> simp
  | cons c rest ih =>
    simp only [hasSub, countOccs, Bool.or_eq_true, ih]
    cases h : isPrefOf p (c :: rest) <;> simp [h]

theorem countOccs_zero (p s : List Char) (h : hasSub p s = false) :
    countOccs p s = 0 := by
  rcases Nat.eq_zero_or_pos (countOccs p s) with h0 | h0
  · exact h0
  · exact absurd ((countOccs_pos_iff p s).mpr h0) (by simp [h])

theorem countOccs_split (p : List Char) (c : Char) (b : List Char)
    (hp : p ≠ []) (hc : c ∉ p) :
    ∀ a, countOccs p (a ++ c :: b) = countOccs p a + countOccs p b := by
  intro a
  induction a with
  | nil =>
    have h1 : isPrefOf p (c :: b) = false := by
      have h2 := isPrefOf_avoid p c hc [] b
      simpa [isPrefOf_nil p hp] using h2
    simp [countOccs, h1, isPrefOf_nil p hp]
  | cons x a2 ih =>
    have h1 := isPrefOf_avoid p c hc (x :: a2) b
    rw [List.cons_append] at h1 ⊢
    simp only [countOccs]
    rw [h1, ih]
    omega

theorem joinNL_cons (s : String) (l : List String) (h : l ≠ []) :
    joinNL (s :: l) = s ++ "\n" ++ joinNL l := by
  cases l with
  | nil => exact absurd rfl h
  | cons t r => rfl

theorem joinNL_snoc_data (l : List String) (m : String) :
    ∃ pre, (joinNL (l ++ [m])).data = pre ++ m.data := by
  induction l with
  | nil => exact ⟨[], rfl⟩
  | cons x r ih =>
    obtain ⟨pre, hpre⟩ := ih
    refine ⟨x.data ++ '\n' :: pre, ?_⟩
    rw [List.cons_append, joinNL_cons x (r ++ [m]) (by simp), strData, strData, hpre]
    have hnl : ("\n" : String).data = ['\n'] := rfl
    rw [hnl]
    simp

theorem joinNL_snoc_form (l : List String) (m : String) :
    joinNL (l ++ [m]) = m ∨ ∃ pre, joinNL (l ++ [m]) = pre ++ "\n" ++ m := by
  induction l with
  | nil => exact Or.inl rfl
  | cons x r ih =>
    right
    rcases ih with h | ⟨pre, hpre⟩
    · exact ⟨x, by rw [List.cons_append, joinNL_cons x (r ++ [m]) (by simp), h]⟩
    · refine ⟨x ++ "\n" ++ pre, ?_⟩
      rw [List.cons_append, joinNL_cons x (r ++ [m]) (by simp), hpre]
      apply strE
      simp [strData]

theorem countOccs_joinNL (p : List Char) (hp : p ≠ []) (hn : ('\n' : Char) ∉ p) :
    ∀ parts : List String,
      countOccs p (joinNL parts).data =
        ((parts.map (fun s => countOccs p s.data)).sum) := by
  intro parts
  induction parts with
  | nil =>
    have h0 : (joinNL []).data = [] := rfl
    rw [h0]
    simp [countOccs, isPrefOf_nil p hp]
  | cons s rest ih =>
    cases rest with
    | nil => simp [joinNL]
    | cons t r =>
      rw [joinNL_cons s (t :: r) (by simp), strData, strData]
      have hnl : ("\n" : String).data = ['\n'] := rfl
      rw [hnl, List.append_assoc, List.singleton_append,
        countOccs_split p '\n' _ hp hn]
      simp [ih]

/-! ## Closed form of report_results -/

/-- Boolean test that every record has status passed or skipped. -/
def allOk (l : List TestCase) : Bool :=
  l.all (fun t => decide (t.status = "passed" ∨ t.status = "skipped"))

/-- Whiteboard tokens of the passed records, in order. -/
def passedTokens (l : List TestCase) : List String :=
  (l.filter (fun t => decide (t.status = "passed"))).map tokenStr

/-- Comment lines contributed by the records, in order. -/
def commentChunks (l : List TestCase) : List String :=
  l.flatMap (fun t =>
    if t.status = "passed" then [sep25, "Test: " ++ testName t] ++ pySplitLines t.systemOut
    else [])

theorem resultsLoop_spec :
    ∀ (l : List TestCase) (c : List String) (b : Bool) (w : List String),
      resultsLoop ⟨c, b, w⟩ l =
        ⟨c ++ commentChunks l, b && allOk l, w ++ passedTokens l⟩ := by
  intro l
  induction l with
  | nil =>
    intro c b w
    simp [resultsLoop, commentChunks, allOk, passedTokens]
  | cons t rest ih =>
    intro c b w
    by_cases hp : t.status = "passed"
    · simp [resultsLoop, hp, ih, commentChunks, allOk, passedTokens,
        List.filter_cons]
    · by_cases hs : t.status = "skipped"
      · simp [resultsLoop, hp, hs, ih, commentChunks, allOk, passedTokens,
          List.filter_cons]
      · simp [resultsLoop, hp, hs, ih, commentChunks, allOk, passedTokens,
          List.filter_cons]

theorem reportResults_eq (r : ReporterCfg) (bug : Bug) (results : List TestCase) :
    reportResults r bug results =
      if pyIn DEVEL_WHITEBOARD_MARK bug.devel_whiteboard then
        (Decision.alreadyProcessed, none)
      else if r.dry_run then
        (Decision.dryRun, none)
      else if allOk results then
        (Decision.updated, some
          ⟨if r.comment then
             some (joinNL ("The gating tests results:" :: commentChunks results))
           else none,
           joinNL ((if bug.devel_whiteboard = "" then [] else [bug.devel_whiteboard])
             ++ passedTokens results ++ [DEVEL_WHITEBOARD_MARK])⟩)
      else (Decision.notAllPassed, none) := by
  rw [reportResults, resultsLoop_spec, reportDecide]
  cases hP : pyIn DEVEL_WHITEBOARD_MARK bug.devel_whiteboard <;>
    cases hD : r.dry_run <;>
      cases hA : allOk results <;>
        by_cases hW : bug.devel_whiteboard = "" <;>
          simp [hP, hD, hA, hW]

theorem reportResults_updated_inv (r : ReporterCfg) (bug : Bug)
    (results : List TestCase) (u : UpdateDict)
    (h : reportResults r bug results = (Decision.updated, some u)) :
    pyIn DEVEL_WHITEBOARD_MARK bug.devel_whiteboard = false ∧
    r.dry_run = false ∧ allOk results = true ∧
    u = ⟨if r.comment then
           some (joinNL ("The gating tests results:" :: commentChunks results))
         else none,
         joinNL ((if bug.devel_whiteboard = "" then [] else [bug.devel_whiteboard])
           ++ passedTokens results ++ [DEVEL_WHITEBOARD_MARK])⟩ := by
  rw [reportResults_eq] at h
  cases hP : pyIn DEVEL_WHITEBOARD_MARK bug.devel_whiteboard <;> rw [hP] at h
  · cases hD : r.dry_run <;> rw [hD] at h
    · cases hA : allOk results <;> rw [hA] at h
      · simp at h
      · simp only [if_true, if_false, Bool.false_eq_true, Prod.mk.injEq,
          Option.some.injEq] at h
        exact ⟨rfl, rfl, rfl, h.2.symm⟩
    · simp at h
  · simp at h

theorem allOk_false_of_bad (l : List TestCase) (t : TestCase) (ht : t ∈ l)
    (hp : t.status ≠ "passed") (hs : t.status ≠ "skipped") : allOk l = false := by
  rw [allOk, Bool.eq_false_iff]
  intro hall
  rw [List.all_eq_true] at hall
  have h2 := hall t ht
  simp [hp, hs] at h2

/-! ## Claim theorems -/

/-- C1 (amended): if the annotation (devel whiteboard) already contains
the processing marker, report_results returns Skipped-Already-Processed
and issues no tracker write; whenever a run updates the ticket, a second
run on the updated ticket with the same records returns
Skipped-Already-Processed, and the new annotation contains exactly one
occurrence of the marker provided the marker does not occur as a
substring of any appended Test+ token. -/
theorem claim_C1 (r : ReporterCfg) (bug : Bug) (results : List TestCase) :
    (pyIn DEVEL_WHITEBOARD_MARK bug.devel_whiteboard = true →
      reportResults r bug results = (Decision.alreadyProcessed, none))
    ∧ (∀ u : UpdateDict,
        reportResults r bug results = (Decision.updated, some u) →
        reportResults r ⟨bug.id, u.devel_whiteboard⟩ results
          = (Decision.alreadyProcessed, none)
        ∧ ((∀ s ∈ passedTokens results, pyIn DEVEL_WHITEBOARD_MARK s = false) →
            countOccs DEVEL_WHITEBOARD_MARK.data u.devel_whiteboard.data = 1)) := by
  constructor
  · intro h
    rw [reportResults_eq, h]
    simp
  · intro u hu
    obtain ⟨h1, h2, h3, h4⟩ := reportResults_updated_inv r bug results u hu
    have hwb : u.devel_whiteboard =
        joinNL (((if bug.devel_whiteboard = "" then [] else [bug.devel_whiteboard])
          ++ passedTokens results) ++ [DEVEL_WHITEBOARD_MARK]) := by
      rw [h4]
    constructor
    · obtain ⟨pre, hpre⟩ := joinNL_snoc_data
        ((if bug.devel_whiteboard = "" then [] else [bug.devel_whiteboard])
          ++ passedTokens results) DEVEL_WHITEBOARD_MARK
      have hin : pyIn DEVEL_WHITEBOARD_MARK u.devel_whiteboard = true := by
        unfold pyIn
        rw [hwb, hpre]
        exact hasSub_suffix _ pre
      rw [reportResults_eq]
      simp [hin]
    · intro htok
      have hpD : DEVEL_WHITEBOARD_MARK.data ≠ [] := by decide
      have hnD : ('\n' : Char) ∉ DEVEL_WHITEBOARD_MARK.data := by decide
      rw [hwb, countOccs_joinNL DEVEL_WHITEBOARD_MARK.data hpD hnD]
      have hold : ((if bug.devel_whiteboard = "" then []
          else [bug.devel_whiteboard]).map
            (fun s => countOccs DEVEL_WHITEBOARD_MARK.data s.data)).sum = 0 := by
        by_cases hW : bug.devel_whiteboard = ""
        · simp [hW]
        · simp only [hW, if_false]
          simp [countOccs_zero _ _ h1]
      have htoks : ((passedTokens results).map
          (fun s => countOccs DEVEL_WHITEBOARD_MARK.data s.data)).sum = 0 := by
        apply List.sum_eq_zero
        intro x hx
        rw [List.mem_map] at hx
        obtain ⟨s, hs, hxs⟩ := hx
        rw [← hxs]
        exact countOccs_zero _ _ (htok s hs)
      have hself : countOccs DEVEL_WHITEBOARD_MARK.data DEVEL_WHITEBOARD_MARK.data
          = 1 := by decide
      rw [List.map_append, List.sum_append, List.map_append, List.sum_append,
        hold, htoks]
      simpa using hself

/-- C1 counterexample: the claim as stated fails in its final part. With
an empty initial annotation and one passed record whose classname equals
the marker text, the first run updates, but the new annotation contains
two occurrences of the marker, not exactly one. -/
theorem claim_C1_cex :
    (reportResults ⟨"p", "r", [], false, false⟩ ⟨1, ""⟩
        [⟨"gating_passed+", "n", "passed", "", none⟩]).1 = Decision.updated
    ∧ Option.map (fun u => countOccs DEVEL_WHITEBOARD_MARK.data u.devel_whiteboard.data)
        (reportResults ⟨"p", "r", [], false, false⟩ ⟨1, ""⟩
          [⟨"gating_passed+", "n", "passed", "", none⟩]).2 = some 2 := by
  constructor
  · decide
  · decide

/-- C1 witness: the amended theorem applied at a concrete input. -/
theorem claim_C1_witness :
    reportResults ⟨"p", "r", [], false, false⟩ ⟨1, "Test+:C\ngating_passed+"⟩
        [⟨"C", "n", "passed", "", none⟩] = (Decision.alreadyProcessed, none)
    ∧ countOccs DEVEL_WHITEBOARD_MARK.data ("Test+:C\ngating_passed+" : String).data
        = 1 := by
  have h := (claim_C1 ⟨"p", "r", [], false, false⟩ ⟨1, ""⟩
      [⟨"C", "n", "passed", "", none⟩]).2
    ⟨none, "Test+:C\ngating_passed+"⟩ (by decide)
  exact ⟨h.1, h.2 (by decide)⟩

/-- C2 (amended): provided the annotation does not already contain the
processing marker and dry-run is not set, any record with a status other
than passed and skipped makes report_results return Skipped-Not-All-Passed
with no tracker write; dropping the skipped records does not change
this. -/
theorem claim_C2 (r : ReporterCfg) (bug : Bug) (results : List TestCase)
    (h1 : pyIn DEVEL_WHITEBOARD_MARK bug.devel_whiteboard = false)
    (h2 : r.dry_run = false)
    (h3 : ∃ t ∈ results, t.status ≠ "passed" ∧ t.status ≠ "skipped") :
    reportResults r bug results = (Decision.notAllPassed, none)
    ∧ reportResults r bug (results.filter (fun t => decide (t.status ≠ "skipped")))
        = (Decision.notAllPassed, none) := by
  obtain ⟨t, ht, hp, hs⟩ := h3
  have hA := allOk_false_of_bad results t ht hp hs
  have ht2 : t ∈ results.filter (fun t => decide (t.status ≠ "skipped")) := by
    rw [List.mem_filter]
    exact ⟨ht, by simp [hs]⟩
  have hA2 := allOk_false_of_bad _ t ht2 hp hs
  simp only [ne_eq, decide_not] at hA2
  constructor
  · rw [reportResults_eq]
    simp [h1, h2, hA]
  · rw [reportResults_eq]
    simp [h1, h2, hA2]

/-- C2 counterexample: the claim as stated fails for a ticket whose
annotation already contains the marker; with a failed record the code
returns Skipped-Already-Processed, not Skipped-Not-All-Passed. -/
theorem claim_C2_cex :
    (reportResults ⟨"p", "r", [], false, false⟩ ⟨7, "gating_passed+"⟩
        [⟨"C", "t", "failed", "", none⟩]).1 = Decision.alreadyProcessed
    ∧ (reportResults ⟨"p", "r", [], false, false⟩ ⟨7, "gating_passed+"⟩
        [⟨"C", "t", "failed", "", none⟩]).1 ≠ Decision.notAllPassed := by
  constructor
  · decide
  · decide

/-- C2 witness: the amended theorem applied at a concrete input. -/
theorem claim_C2_witness :
    reportResults ⟨"p", "r", [], false, false⟩ ⟨2, ""⟩
        [⟨"C", "n", "failed", "", none⟩] = (Decision.notAllPassed, none) := by
  exact (claim_C2 ⟨"p", "r", [], false, false⟩ ⟨2, ""⟩
    [⟨"C", "n", "failed", "", none⟩] rfl rfl
    ⟨⟨"C", "n", "failed", "", none⟩, by simp, by decide, by decide⟩).1

/-- C3: the claim states that find_bugzillas matches occurrences anywhere
in the text, including at the very start. The code passes re.MULTILINE
(integer value 8) as the pos argument of findall, so scanning starts at
offset 8: on an input with the token at the start the code returns the
empty list, while the same scanner started at offset 0 (the specified
behavior) returns the digit group; a token placed at offset 8 is
found. -/
theorem claim_C3 :
    findBugzillas "@bz123" = []
    ∧ scanBz ("@bz123" : String).data = [123]
    ∧ findBugzillas "AAAAAAAA@bz123" = [123] := by
  refine ⟨rfl, ?_, ?_⟩
  · decide
  · decide

/-- C4: whenever report_results decides to update, the new annotation is
the join of the preserved existing annotation (when nonempty), one Test+
token per passed record in order, and the marker; hence the existing
annotation text is a leading segment of the new value and the marker is
its final line; the narrative comment is present in the payload exactly
when comment emission is enabled. -/
theorem claim_C4 (r : ReporterCfg) (bug : Bug) (results : List TestCase)
    (u : UpdateDict)
    (h : reportResults r bug results = (Decision.updated, some u)) :
    u.devel_whiteboard =
      joinNL ((if bug.devel_whiteboard = "" then [] else [bug.devel_whiteboard])
        ++ passedTokens results ++ [DEVEL_WHITEBOARD_MARK])
    ∧ (∃ rest, u.devel_whiteboard.data = bug.devel_whiteboard.data ++ rest)
    ∧ (u.devel_whiteboard = DEVEL_WHITEBOARD_MARK
       ∨ ∃ pre, u.devel_whiteboard = pre ++ "\n" ++ DEVEL_WHITEBOARD_MARK)
    ∧ u.comment.isSome = r.comment := by
  obtain ⟨h1, h2, h3, h4⟩ := reportResults_updated_inv r bug results u h
  have hwb : u.devel_whiteboard =
      joinNL ((if bug.devel_whiteboard = "" then [] else [bug.devel_whiteboard])
        ++ passedTokens results ++ [DEVEL_WHITEBOARD_MARK]) := by
    rw [h4]
  refine ⟨hwb, ?_, ?_, ?_⟩
  · by_cases hW : bug.devel_whiteboard = ""
    · refine ⟨u.devel_whiteboard.data, ?_⟩
      rw [hW]
      rfl
    · refine ⟨'\n' :: (joinNL (passedTokens results ++ [DEVEL_WHITEBOARD_MARK])).data, ?_⟩
      rw [hwb]
      rw [if_neg hW, List.singleton_append, List.cons_append,
        joinNL_cons _ _ (by simp), strData, strData]
      have hnl : ("\n" : String).data = ['\n'] := rfl
      rw [hnl]
      simp
  · rw [hwb]
    exact joinNL_snoc_form _ DEVEL_WHITEBOARD_MARK
  · rw [h4]
    cases hr : r.comment <;> simp [hr]

/-- C4 witness: the theorem applied at a concrete input. -/
theorem claim_C4_witness :
    ("OLD\nTest+:login.feature\ngating_passed+" : String) =
      joinNL ((if ("OLD" : String) = "" then [] else ["OLD"])
        ++ passedTokens [⟨"C", "n", "passed", "out", some "login.feature"⟩]
        ++ [DEVEL_WHITEBOARD_MARK])
    ∧ (∃ rest, ("OLD\nTest+:login.feature\ngating_passed+" : String).data
        = ("OLD" : String).data ++ rest)
    ∧ (("OLD\nTest+:login.feature\ngating_passed+" : String) = DEVEL_WHITEBOARD_MARK
       ∨ ∃ pre, ("OLD\nTest+:login.feature\ngating_passed+" : String)
           = pre ++ "\n" ++ DEVEL_WHITEBOARD_MARK)
    ∧ (none : Option String).isSome = false := by
  exact claim_C4 ⟨"p", "r", [], false, false⟩ ⟨4, "OLD"⟩
    [⟨"C", "n", "passed", "out", some "login.feature"⟩]
    ⟨none, "OLD\nTest+:login.feature\ngating_passed+"⟩ (by decide)

/-- C5: when dry-run is set, report_results issues no tracker write,
whatever the records are; the modeled tracker state is untouched. -/
theorem claim_C5 (r : ReporterCfg) (bug : Bug) (results : List TestCase)
    (h : r.dry_run = true) : (reportResults r bug results).2 = none := by
  rw [reportResults_eq]
  cases hP : pyIn DEVEL_WHITEBOARD_MARK bug.devel_whiteboard <;> simp [hP, h]

/-- C5 witness: the theorem applied at a concrete input. -/
theorem claim_C5_witness :
    (reportResults ⟨"p", "r", [], true, false⟩ ⟨3, ""⟩
      [⟨"C", "n", "passed", "", none⟩]).2 = none :=
  claim_C5 ⟨"p", "r", [], true, false⟩ ⟨3, ""⟩ [⟨"C", "n", "passed", "", none⟩] rfl

/-- C7: for a testcase element carrying a status attribute, process_file
fails when the system-out child is absent; when status is failed and the
failure child is present it captures the failure attributes and text;
and with the failure child absent (and a readable system-out text) the
parse fails exactly when status is failed. Python exceptions are modeled
as the error case of Except. -/
theorem claim_C7 (e : TestcaseElem) (st : String)
    (hst : lookupA "status" e.attribs = some st) :
    (e.systemOut = none → ∃ m, processElem e = Except.error m)
    ∧ (∀ so f, e.systemOut = some (some so) → st = "failed" → e.failure = some f →
        processElem e
          = Except.ok ⟨e.attribs, so, some ⟨f.attribs, f.text⟩, findFeatureFile so⟩)
    ∧ (∀ so, e.systemOut = some (some so) → e.failure = none →
        ((∃ m, processElem e = Except.error m) ↔ st = "failed")) := by
  refine ⟨?_, ?_, ?_⟩
  · intro h
    refine ⟨"AttributeError: no system-out element", ?_⟩
    simp [processElem, h]
  · intro so f h hfail hf
    subst hfail
    simp [processElem, h, hst, failureOf, hf]
  · intro so h hf
    by_cases hb : st = "failed"
    · subst hb
      simp [processElem, h, hst, failureOf, hf]
    · simp [processElem, h, hst, failureOf, hb, hf]

/-- C7 witness: the theorem applied at a concrete element with a failed
status and a failure child. -/
theorem claim_C7_witness :
    processElem ⟨[("status", "failed"), ("classname", "C")], some (some "out"),
        some ⟨[("message", "assert")], some "trace"⟩⟩
      = Except.ok ⟨[("status", "failed"), ("classname", "C")], "out",
          some ⟨[("message", "assert")], some "trace"⟩, none⟩ := by
  have h := (claim_C7 ⟨[("status", "failed"), ("classname", "C")], some (some "out"),
      some ⟨[("message", "assert")], some "trace"⟩⟩ "failed" rfl).2.1
    "out" ⟨[("message", "assert")], some "trace"⟩ rfl rfl rfl
  exact h

/-- C9: when the tracker client is not logged in, the run issues no
tracker operation at all, and (when report parsing succeeds, which in
main happens before the reporter is constructed) exits with status 1. -/
theorem claim_C9 (tb : BzQuery → List Bug) (fs : List (String × List TestcaseElem))
    (r : ReporterCfg) :
    (mainRun false tb fs r).2 = []
    ∧ (∀ m, parseResults fs = Except.ok m →
        mainRun false tb fs r = (MainResult.exited 1, [])) := by
  cases h : parseResults fs with
  | error m => simp [mainRun, h]
  | ok m => simp [mainRun, h]

/-- C9 witness: the theorem applied at a concrete input. -/
theorem claim_C9_witness :
    mainRun false (fun _ => []) [] ⟨"p", "r", [], false, false⟩
      = (MainResult.exited 1, []) :=
  (claim_C9 (fun _ => []) [] ⟨"p", "r", [], false, false⟩).2 [] rfl

theorem processElem_err_of_empty (e : TestcaseElem) (h : e.systemOut = some none) :
    ∃ m, processElem e = Except.error m := by
  cases h2 : lookupA "status" e.attribs with
  | none =>
    refine ⟨"KeyError: status", ?_⟩
    simp [processElem, h, h2]
  | some st =>
    by_cases hb : st = "failed"
    · cases h3 : e.failure with
      | none =>
        refine ⟨"AttributeError: no failure element", ?_⟩
        simp [processElem, failureOf, h, h2, hb, h3]
      | some f =>
        refine ⟨"TypeError: system-out text is None", ?_⟩
        simp [processElem, failureOf, h, h2, hb, h3]
    · refine ⟨"TypeError: system-out text is None", ?_⟩
      simp [processElem, failureOf, h, h2, hb]

theorem processCases_err :
    ∀ (l : List TestcaseElem) (acc : List (Nat × List ProcessedCase)),
      (∃ e ∈ l, ∃ m0, processElem e = Except.error m0) →
      ∃ m, processCases acc l = Except.error m := by
  intro l
  induction l with
  | nil =>
    intro acc h
    obtain ⟨e, he, _⟩ := h
    simp at he
  | cons x rest ih =>
    intro acc h
    obtain ⟨e, he, m0, hm⟩ := h
    cases hx : processElem x with
    | error m => exact ⟨m, by simp [processCases, hx]⟩
    | ok pc =>
      rcases List.mem_cons.mp he with heq | hmem
      · rw [heq, hx] at hm
        cases hm
      · have h2 := ih (addCase acc pc) ⟨e, hmem, m0, hm⟩
        obtain ⟨m, hm2⟩ := h2
        exact ⟨m, by simp [processCases, hx, hm2]⟩

/-- C10: a testcase whose system-out element is present but empty (its
text is None) makes process_file fail as well: the regex search is
applied unconditionally to the text, and on None it raises; so any file
containing such a testcase aborts parsing. -/
theorem claim_C10 (elems : List TestcaseElem)
    (h : ∃ e ∈ elems, e.systemOut = some none) :
    ∃ m, processFileElems elems = Except.error m := by
  obtain ⟨e, he, hso⟩ := h
  obtain ⟨m0, hm0⟩ := processElem_err_of_empty e hso
  exact processCases_err elems [] ⟨e, he, m0, hm0⟩

/-- C10 witness: the theorem applied at a concrete file content. -/
theorem claim_C10_witness :
    ∃ m, processFileElems [⟨[("status", "passed")], some none, none⟩]
      = Except.error m :=
  claim_C10 [⟨[("status", "passed")], some none, none⟩]
    ⟨⟨[("status", "passed")], some none, none⟩, by simp, rfl⟩

/-- C6: the claim states that the keys of the aggregated mapping are
exactly the ticket ids referenced by at-bz tokens in the system-out
texts. Because find_bugzillas starts scanning at offset 8 (re.MULTILINE
passed as the pos argument of findall), a reference within the first 8
characters of a system-out text is dropped: for a directory with one xml
file whose only testcase has system-out text consisting of the token,
the aggregation returns an empty mapping although the scanner started at
offset 0 (the specified behavior) finds the reference. -/
theorem claim_C6 :
    parseResults [("report.xml",
        [⟨[("classname", "C"), ("name", "n"), ("status", "passed")],
          some (some "@bz1"), none⟩])] = Except.ok []
    ∧ scanBz ("@bz1" : String).data = [1] := by
  constructor
  · rfl
  · decide

/-- C8: the claim states that find_feature_file matches the first
occurrence anywhere in the text, including at the very start. The code
passes re.MULTILINE (integer value 8) as the pos argument of search, so
scanning starts at offset 8: on an input with the token at the start the
code returns none, while the same scanner started at offset 0 (the
specified behavior) captures the token; a token placed at offset 8 is
found. -/
theorem claim_C8 :
    findFeatureFile "@feature_file_name:login.feature" = none
    ∧ scanFeature ("@feature_file_name:login.feature" : String).data
        = some ("login.feature" : String).data
    ∧ findFeatureFile "AAAAAAAA@feature_file_name:login.feature"
        = some "login.feature" := by
  refine ⟨rfl, ?_, ?_⟩
  · decide
  · decide

end Bzreporter
